import Mathlib

/-!
Verification of the election analyzer's aggregation and reporting engine.

The definitions below shallowly embed `src/election_data_analyzer.py`
(class `ElectionDataAnalyzer`), with `src/terminalBase.py` as a second
reference for the same logic.  A pandas `DataFrame` is modelled as a
column-name list plus a list of rows; `groupby(key)['votes'].sum()`
(pandas default `sort=True`) is modelled as: collect the distinct keys
in first-occurrence order, sort them ascending, and pair each with the
exact integer sum of the `votes` of its rows; `.sort_values(ascending=False)`
is modelled as a descending sort on the summed values that is stable —
exact for series of at most 16 groups, where numpy's quicksort is a
stable insertion-sort pass; see `sortValsDesc` for the faithfulness
scope on larger series.
-/

namespace ElectionAnalyzer

/-- One row of the loaded table: the four columns the analyzer uses.
`votes` is an integer, as pandas loads whole-number vote counts
(int64); negative values are representable, since nothing in the code
rules them out. -/
structure Row where
  region : String
  candidate : String
  party : String
  votes : Int
deriving DecidableEq, Repr

/-- A loaded pandas DataFrame: its column schema plus its rows.
`validate_data` inspects only `cols` (the code checks
`col in self.data.columns`). -/
structure DataFrame where
  cols : List String
  rows : List Row
deriving DecidableEq, Repr

/-! ### Sorting infrastructure (model of pandas/numpy sorting)

`ordSort r` is an insertion sort that places `x` before `y` whenever
`r x y` holds.  It is stable: elements that compare equal keep their
input order. -/

/-- Insert `x` into `l`, before the first element `y` with `r x y`. -/
def ordInsert (r : α → α → Bool) (x : α) : List α → List α
  | [] => [x]
  | y :: ys => if r x y then x :: y :: ys else y :: ordInsert r x ys

/-- Stable insertion sort by the comparator `r`. -/
def ordSort (r : α → α → Bool) : List α → List α
  | [] => []
  | x :: xs => ordInsert r x (ordSort r xs)

/-- Ascending sort of group keys: pandas `groupby(..., sort=True)`.
Group keys are column values; string-valued columns are modelled as
`List Char` (a string's character sequence) so that the lexicographic
order used by pandas is the `LinearOrder` on the key type. -/
def sortAsc [LinearOrder κ] (l : List κ) : List κ :=
  ordSort (fun a b => decide (a ≤ b)) l

/-- `.sort_values(ascending=False)` with the default `kind='quicksort'`,
modelled as a stable descending sort on the summed values.  Faithfulness
scope: numpy's quicksort is an introsort that runs a single insertion-sort
pass — which is stable — on arrays of at most 16 elements, and pandas
implements descending order by reversing the series before and after the
ascending argsort, which preserves first-occurrence order among ties; the
model is therefore exact, tie order included, for aggregates with at most
16 groups.  On larger series pandas documents quicksort as not stable, so
there only the multiset of entries and the non-increasing value order —
not the tie order — are guarantees of the code; the one tie-order theorem
below accordingly carries an explicit at-most-16-groups hypothesis, while
every other theorem is invariant under permutations of tied entries. -/
def sortValsDesc (l : List (κ × Int)) : List (κ × Int) :=
  ordSort (fun a b => decide (b.2 ≤ a.2)) l

/-- The distinct elements of `l`, keeping the first occurrence of each. -/
def dedupF [LinearOrder κ] : List κ → List κ
  | [] => []
  | k :: ks => k :: (dedupF ks).filter (fun x => decide (x ≠ k))

/-- Sum of the `votes` of the rows of `rows` whose key is `k`:
one group's total in `groupby(key)['votes'].sum()`. -/
def fiberSum [LinearOrder κ] (key : Row → κ) (rows : List Row) (k : κ) : Int :=
  ((rows.filter (fun r => decide (key r = k))).map Row.votes).sum

/-- The distinct group keys of `rows` under `key`, in the ascending
order pandas `groupby(..., sort=True)` produces them. -/
def keysOf [LinearOrder κ] (key : Row → κ) (rows : List Row) : List κ :=
  sortAsc (dedupF (rows.map key))

/-- `rows.groupby(key)['votes'].sum()`: the distinct keys in ascending
order, each with the exact integer sum of its group's votes. -/
def groupedSums [LinearOrder κ] (key : Row → κ) (rows : List Row) : List (κ × Int) :=
  (keysOf key rows).map (fun k => (k, fiberSum key rows k))

/-- `rows.groupby(key)['votes'].sum().sort_values(ascending=False)`:
the shared aggregation pipeline of the three analysis methods. -/
def rankBy [LinearOrder κ] (key : Row → κ) (rows : List Row) : List (κ × Int) :=
  sortValsDesc (groupedSums key rows)

/-- The grouping key of turnout analysis: the `region` column value. -/
def regionKey (r : Row) : List Char :=
  r.region.data

/-- The grouping key of party-performance analysis: the `party` column value. -/
def partyKey (r : Row) : List Char :=
  r.party.data

/-- The grouping key of candidate-performance analysis: the
(candidate, party) pair, ordered lexicographically as pandas orders a
two-column group key. -/
def candKey (r : Row) : Lex (List Char × List Char) :=
  toLex (r.candidate.data, r.party.data)

/-- `self.data.groupby('region')['votes'].sum().sort_values(ascending=False)`. -/
def turnoutCalc (rows : List Row) : List (List Char × Int) :=
  rankBy regionKey rows

/-- `self.data.groupby('party')['votes'].sum().sort_values(ascending=False)`. -/
def partyCalc (rows : List Row) : List (List Char × Int) :=
  rankBy partyKey rows

/-- `self.data.groupby(['candidate','party'])['votes'].sum().sort_values(ascending=False)`. -/
def candidateCalc (rows : List Row) : List (Lex (List Char × List Char) × Int) :=
  rankBy candKey rows

/-! ### Validation and the analysis session -/

/-- `required_columns = ['region', 'candidate', 'party', 'votes']`. -/
def required_columns : List String :=
  ["region", "candidate", "party", "votes"]

/-- The typed failures the session can surface.  The Python code raises
`ValueError` with a distinguishing message for each of these. -/
inductive Err where
  | NoDataLoaded
  | MissingColumns (missing : List String)
  | NoAnalysisResults
deriving DecidableEq, Repr

/-- `ElectionDataAnalyzer.validate_data` (lines 41-49): succeeds exactly
when every required column name occurs in the frame's schema, otherwise
reports the missing names; it inspects nothing but the schema. -/
def validate_data (df : DataFrame) : Except Err Bool :=
  if required_columns.all (fun c => df.cols.contains c) then
    Except.ok true
  else
    Except.error (Err.MissingColumns (required_columns.filter (fun c => !df.cols.contains c)))

/-- The contents of `self.analysis_results`: the dictionary only ever
holds the three fixed keys, each mapped to a ranked series once the
corresponding analysis has run. -/
structure Results where
  turnout_by_region : Option (List (List Char × Int))
  party_performance : Option (List (List Char × Int))
  candidate_performance : Option (List (Lex (List Char × List Char) × Int))
deriving DecidableEq

/-- `not self.analysis_results`: the dictionary is empty. -/
def Results.isEmpty (res : Results) : Bool :=
  res.turnout_by_region.isNone && res.party_performance.isNone
    && res.candidate_performance.isNone

/-- The mutable state of an `ElectionDataAnalyzer` object: the loaded
frame (`self.data`, `None` initially), the analysis-results mapping,
and `self.visualizations['latest']` — the only key the code ever
writes into `self.visualizations`, holding the path of the last saved
chart image. -/
structure Session where
  data : Option DataFrame
  analysis_results : Results
  visualizations_latest : Option String
deriving DecidableEq

/-- `ElectionDataAnalyzer.__init__`: no data, empty results, empty
visualizations. -/
def initSession : Session :=
  ⟨none, ⟨none, none, none⟩, none⟩

/-- The successful path of `ElectionDataAnalyzer.load_data` (lines 18-39):
the parsed frame replaces `self.data` and nothing else on the object is
touched — in particular `self.analysis_results` is left as it was. -/
def load_data (s : Session) (df : DataFrame) : Session × Bool :=
  ({ s with data := some df }, true)

/-- `ElectionDataAnalyzer.analyze_turnout` (lines 51-64): fail if no
data is loaded, then re-validate, then compute the ranked turnout
series, store it under `turnout_by_region` and return it.  A raised
error leaves the object unchanged. -/
def analyze_turnout (s : Session) : Session × Except Err (List (List Char × Int)) :=
  match s.data with
  | none => (s, Except.error Err.NoDataLoaded)
  | some df =>
    match validate_data df with
    | Except.error e => (s, Except.error e)
    | Except.ok _ =>
      let turnout := turnoutCalc df.rows
      ({ s with analysis_results :=
          { s.analysis_results with turnout_by_region := some turnout } },
        Except.ok turnout)

/-- `ElectionDataAnalyzer.analyze_party_performance` (lines 66-79). -/
def analyze_party_performance (s : Session) : Session × Except Err (List (List Char × Int)) :=
  match s.data with
  | none => (s, Except.error Err.NoDataLoaded)
  | some df =>
    match validate_data df with
    | Except.error e => (s, Except.error e)
    | Except.ok _ =>
      let perf := partyCalc df.rows
      ({ s with analysis_results :=
          { s.analysis_results with party_performance := some perf } },
        Except.ok perf)

/-- `ElectionDataAnalyzer.analyze_candidate_performance` (lines 81-94). -/
def analyze_candidate_performance (s : Session) :
    Session × Except Err (List (Lex (List Char × List Char) × Int)) :=
  match s.data with
  | none => (s, Except.error Err.NoDataLoaded)
  | some df =>
    match validate_data df with
    | Except.error e => (s, Except.error e)
    | Except.ok _ =>
      let perf := candidateCalc df.rows
      ({ s with analysis_results :=
          { s.analysis_results with candidate_performance := some perf } },
        Except.ok perf)

/-- `ElectionDataAnalyzer.generate_visualizations` (lines 96-135),
reduced to its effect on the object's state: fail with the
no-results error when the mapping is empty; otherwise draw the charts
(external output), save them to `election_analysis_<timestamp>.png`,
record that path under `self.visualizations['latest']` and return it. -/
def generate_visualizations (s : Session) (timestamp : String) :
    Session × Except Err String :=
  if s.analysis_results.isEmpty then
    (s, Except.error Err.NoAnalysisResults)
  else
    let output_file := "election_analysis_" ++ timestamp ++ ".png"
    ({ s with visualizations_latest := some output_file }, Except.ok output_file)

/-! ### Report rendering -/

/-- One line per (key, total) pair, the model of a pandas
`Series.to_string` body, with a renderer for the key type. -/
def seriesLines (render : κ → String) (series : List (κ × Int)) : String :=
  String.intercalate "\n" (series.map (fun e => render e.1 ++ "    " ++ toString e.2))

/-- Render a plain string-valued group key. -/
def renderStrKey (k : List Char) : String :=
  String.mk k

/-- Render a (candidate, party) group key. -/
def renderPairKey (k : Lex (List Char × List Char)) : String :=
  String.mk (ofLex k).1 ++ "  " ++ String.mk (ofLex k).2

/-- The `"="*40` separator line under the report title. -/
def sepLine : String :=
  String.mk (List.replicate 40 '=')

/-- `ElectionDataAnalyzer.generate_report` (lines 137-168), modelled on
the text it writes: fail with `NoAnalysisResults` when the mapping is
empty, otherwise write the title, the timestamp line, then one block
per stored analysis kind in the fixed source order, the candidate block
truncated by `.head(10)`, and finally — lines 164-165 — a
`Visualization saved to:` line whenever `self.visualizations` holds a
`'latest'` entry.  The object's state is never modified. -/
def generate_report (s : Session) (timestamp : String) : Session × Except Err String :=
  if s.analysis_results.isEmpty then
    (s, Except.error Err.NoAnalysisResults)
  else
    (s, Except.ok (
      "ELECTION ANALYSIS REPORT\n" ++ sepLine ++ "\n\n"
        ++ "Generated on: " ++ timestamp ++ "\n\n"
        ++ (match s.analysis_results.turnout_by_region with
            | none => ""
            | some t => "VOTER TURNOUT BY REGION:\n" ++ seriesLines renderStrKey t ++ "\n\n")
        ++ (match s.analysis_results.party_performance with
            | none => ""
            | some t => "PARTY PERFORMANCE:\n" ++ seriesLines renderStrKey t ++ "\n\n")
        ++ (match s.analysis_results.candidate_performance with
            | none => ""
            | some t => "CANDIDATE PERFORMANCE:\n"
                ++ seriesLines renderPairKey (t.take 10) ++ "\n\n")
        ++ (match s.visualizations_latest with
            | none => ""
            | some f => "Visualization saved to: " ++ f ++ "\n")))

/-- The trailing line of the report contributed by the visualization
state: empty when no chart has been generated, the
`Visualization saved to:` line of source lines 164-165 otherwise. -/
def vizLine : Option String → String
  | none => ""
  | some f => "Visualization saved to: " ++ f ++ "\n"

instance : DecidableEq (Except Err String) :=
  fun a b =>
    match a, b with
    | Except.ok x, Except.ok y => decidable_of_iff (x = y) (by simp)
    | Except.error x, Except.error y => decidable_of_iff (x = y) (by simp)
    | Except.ok _, Except.error _ => isFalse (by simp)
    | Except.error _, Except.ok _ => isFalse (by simp)

/-- Modelled from the spec: `composeReport` concatenates a report
title, a generation timestamp line, then each available analysis block
in the fixed order turnout-by-region, party-performance,
candidate-performance (capped at the default top-N of 10), each block
produced from the stored ranked series alone; missing kinds contribute
nothing.  This is the spec-side description to compare
`generate_report` against; it is a function of the results snapshot and
the timestamp only. -/
def composeReport (res : Results) (timestamp : String) : String :=
  let blocks : List String :=
    [match res.turnout_by_region with
     | none => ""
     | some t => "VOTER TURNOUT BY REGION:\n" ++ seriesLines renderStrKey t ++ "\n\n",
     match res.party_performance with
     | none => ""
     | some t => "PARTY PERFORMANCE:\n" ++ seriesLines renderStrKey t ++ "\n\n",
     match res.candidate_performance with
     | none => ""
     | some t => "CANDIDATE PERFORMANCE:\n" ++ seriesLines renderPairKey (t.take 10) ++ "\n\n"]
  "ELECTION ANALYSIS REPORT\n" ++ sepLine ++ "\n\n"
    ++ "Generated on: " ++ timestamp ++ "\n\n"
    ++ String.join blocks

end ElectionAnalyzer

namespace ElectionAnalyzer

/-! ### Properties of the stable insertion sort -/

theorem ordInsert_perm (r : α → α → Bool) (x : α) :
    ∀ l : List α, (ordInsert r x l).Perm (x :: l)
  | [] => List.Perm.refl _
  | y :: ys => by
    unfold ordInsert
    by_cases h : r x y = true
    · simp [h]
    · simp only [h, if_false]
      exact ((ordInsert_perm r x ys).cons y).trans (List.Perm.swap x y ys)

theorem ordSort_perm (r : α → α → Bool) : ∀ l : List α, (ordSort r l).Perm l
  | [] => List.Perm.refl _
  | x :: xs =>
    (ordInsert_perm r x (ordSort r xs)).trans ((ordSort_perm r xs).cons x)

theorem mem_ordSort {r : α → α → Bool} {l : List α} {a : α} :
    a ∈ ordSort r l ↔ a ∈ l :=
  (ordSort_perm r l).mem_iff

theorem sublist_ordInsert (r : α → α → Bool) (x : α) :
    ∀ l : List α, l.Sublist (ordInsert r x l)
  | [] => List.nil_sublist _
  | y :: ys => by
    unfold ordInsert
    by_cases h : r x y = true
    · simp [h, List.Sublist.cons]
    · simpa [h] using (sublist_ordInsert r x ys).cons₂ y

theorem pairwise_ordInsert (r : α → α → Bool)
    (htot : ∀ a b, r a b = true ∨ r b a = true)
    (htrans : ∀ a b c, r a b = true → r b c = true → r a c = true) (x : α) :
    ∀ l : List α, l.Pairwise (fun a b => r a b = true) →
      (ordInsert r x l).Pairwise (fun a b => r a b = true)
  | [], _ => by simp [ordInsert]
  | y :: ys, h => by
    rcases List.pairwise_cons.mp h with ⟨hy, hys⟩
    unfold ordInsert
    by_cases hxy : r x y = true
    · rw [if_pos hxy]
      refine List.pairwise_cons.mpr ⟨?_, h⟩
      intro z hz
      rcases List.mem_cons.mp hz with rfl | hz
      · exact hxy
      · exact htrans x y z hxy (hy z hz)
    · rw [if_neg hxy]
      refine List.pairwise_cons.mpr ⟨?_, pairwise_ordInsert r htot htrans x ys hys⟩
      intro z hz
      rcases List.mem_cons.mp ((ordInsert_perm r x ys).mem_iff.mp hz) with rfl | hz
      · exact (htot z y).resolve_left hxy
      · exact hy z hz

theorem pairwise_ordSort (r : α → α → Bool)
    (htot : ∀ a b, r a b = true ∨ r b a = true)
    (htrans : ∀ a b c, r a b = true → r b c = true → r a c = true) :
    ∀ l : List α, (ordSort r l).Pairwise (fun a b => r a b = true)
  | [] => by simp [ordSort]
  | x :: xs =>
    pairwise_ordInsert r htot htrans x (ordSort r xs) (pairwise_ordSort r htot htrans xs)

theorem ordInsert_pair {r : α → α → Bool} {a b : α} (hab : r a b = true) :
    ∀ {l : List α}, b ∈ l → [a, b].Sublist (ordInsert r a l)
  | [], hb => absurd hb (List.not_mem_nil b)
  | y :: ys, hb => by
    unfold ordInsert
    by_cases hay : r a y = true
    · simpa [hay] using (List.singleton_sublist.mpr hb).cons₂ a
    · have hbne : b ≠ y := fun h => hay (h ▸ hab)
      have hbys : b ∈ ys := (List.mem_cons.mp hb).resolve_left hbne
      simpa [hay] using (ordInsert_pair hab hbys).cons y

theorem ordSort_pair_sublist {r : α → α → Bool} {a b : α} (hab : r a b = true) :
    ∀ {l : List α}, [a, b].Sublist l → [a, b].Sublist (ordSort r l)
  | x :: xs, h => by
    cases h with
    | cons _ h' =>
      exact (ordSort_pair_sublist hab h').trans (sublist_ordInsert r x (ordSort r xs))
    | cons₂ _ h' =>
      exact ordInsert_pair hab
        (mem_ordSort.mpr (h'.subset (List.mem_cons_self b [])))

/-! ### Properties of first-occurrence deduplication -/

theorem mem_dedupF [LinearOrder κ] {a : κ} : ∀ {l : List κ}, a ∈ dedupF l ↔ a ∈ l
  | [] => Iff.rfl
  | k :: ks => by
    unfold dedupF
    by_cases hak : a = k
    · simp [hak]
    · simp [List.mem_filter, hak, mem_dedupF (l := ks)]

theorem nodup_dedupF [LinearOrder κ] : ∀ l : List κ, (dedupF l).Nodup
  | [] => List.nodup_nil
  | k :: ks => by
    unfold dedupF
    refine List.nodup_cons.mpr ⟨?_, (nodup_dedupF ks).filter _⟩
    intro hk
    simpa using (List.mem_filter.mp hk).2

/-! ### Properties of the ascending key list -/

theorem mem_keysOf [LinearOrder κ] {key : Row → κ} {rows : List Row} {k : κ} :
    k ∈ keysOf key rows ↔ k ∈ rows.map key := by
  unfold keysOf sortAsc
  rw [mem_ordSort, mem_dedupF]

theorem nodup_keysOf [LinearOrder κ] (key : Row → κ) (rows : List Row) :
    (keysOf key rows).Nodup :=
  ((ordSort_perm _ _).nodup_iff).mpr (nodup_dedupF _)

theorem pairwise_lt_of_le [LinearOrder κ] :
    ∀ {l : List κ}, l.Pairwise (· ≤ ·) → l.Nodup → l.Pairwise (· < ·)
  | [], _, _ => List.Pairwise.nil
  | x :: xs, hle, hnd => by
    rcases List.pairwise_cons.mp hle with ⟨hx, hxs⟩
    rcases List.nodup_cons.mp hnd with ⟨hxmem, hnds⟩
    refine List.pairwise_cons.mpr ⟨?_, pairwise_lt_of_le hxs hnds⟩
    intro z hz
    exact lt_of_le_of_ne (hx z hz) (fun h => hxmem (h ▸ hz))

theorem sorted_keysOf [LinearOrder κ] (key : Row → κ) (rows : List Row) :
    (keysOf key rows).Pairwise (· < ·) := by
  refine pairwise_lt_of_le ?_ (nodup_keysOf key rows)
  have h := pairwise_ordSort (fun a b : κ => decide (a ≤ b))
    (fun a b => by rcases le_total a b with h | h <;> simp [h])
    (fun a b c hab hbc => by
      simp only [decide_eq_true_eq] at hab hbc ⊢
      exact le_trans hab hbc)
    (dedupF (rows.map key))
  exact h.imp (fun hab => of_decide_eq_true hab)

theorem pair_sublist_of_sorted [LinearOrder κ] {a b : κ} :
    ∀ {l : List κ}, l.Pairwise (· < ·) → a ∈ l → b ∈ l → a < b → [a, b].Sublist l
  | x :: xs, hs, ha, hb, hab => by
    rcases List.pairwise_cons.mp hs with ⟨hx, hxs⟩
    rcases List.mem_cons.mp ha with hax | ha2
    · subst hax
      have hbxs : b ∈ xs := by
        rcases List.mem_cons.mp hb with hbx | hb2
        · exact absurd (hbx ▸ hab) (lt_irrefl b)
        · exact hb2
      exact (List.singleton_sublist.mpr hbxs).cons₂ a
    · have hbxs : b ∈ xs := by
        rcases List.mem_cons.mp hb with hbx | hb2
        · exact absurd (lt_trans (hx a ha2) (hbx ▸ hab)) (lt_irrefl x)
        · exact hb2
      exact (pair_sublist_of_sorted hxs ha2 hbxs hab).cons x

/-! ### Properties of the aggregation pipeline -/

theorem rankBy_perm [LinearOrder κ] (key : Row → κ) (rows : List Row) :
    (rankBy key rows).Perm (groupedSums key rows) :=
  ordSort_perm _ _

theorem mem_rankBy [LinearOrder κ] {key : Row → κ} {rows : List Row} {k : κ} {v : Int} :
    (k, v) ∈ rankBy key rows ↔ k ∈ rows.map key ∧ v = fiberSum key rows k := by
  rw [(rankBy_perm key rows).mem_iff]
  unfold groupedSums
  rw [List.mem_map]
  constructor
  · rintro ⟨k2, hk2, heq⟩
    rcases Prod.mk.injEq .. ▸ heq with ⟨rfl, rfl⟩
    exact ⟨mem_keysOf.mp hk2, rfl⟩
  · rintro ⟨hk, rfl⟩
    exact ⟨k, mem_keysOf.mpr hk, rfl⟩

theorem length_rankBy [LinearOrder κ] (key : Row → κ) (rows : List Row) :
    (rankBy key rows).length = (rows.map key).toFinset.card := by
  rw [(rankBy_perm key rows).length_eq]
  unfold groupedSums
  rw [List.length_map]
  unfold keysOf sortAsc
  rw [(ordSort_perm _ _).length_eq]
  rw [← List.toFinset_card_of_nodup (nodup_dedupF (rows.map key))]
  congr 1
  exact Finset.ext (fun a => by simp [List.mem_toFinset, mem_dedupF])

theorem sorted_desc_rankBy [LinearOrder κ] (key : Row → κ) (rows : List Row) :
    (rankBy key rows).Pairwise (fun p q => q.2 ≤ p.2) := by
  have h := pairwise_ordSort (fun a b : κ × Int => decide (b.2 ≤ a.2))
    (fun a b => by rcases le_total a.2 b.2 with h | h <;> simp [h])
    (fun a b c hab hbc => by
      simp only [decide_eq_true_eq] at hab hbc ⊢
      exact le_trans hbc hab)
    (groupedSums key rows)
  exact h.imp (fun hab => of_decide_eq_true hab)

/-! ### Conservation of the vote total -/

theorem sum_map_add (f g : κ → Int) :
    ∀ l : List κ, (l.map (fun k => f k + g k)).sum = (l.map f).sum + (l.map g).sum
  | [] => by simp
  | k :: ks => by
    simp only [List.map_cons, List.sum_cons, sum_map_add f g ks]
    ring

theorem sum_if_single [LinearOrder κ] {a : κ} (v : Int) :
    ∀ {ks : List κ}, a ∈ ks → ks.Nodup →
      (ks.map (fun k => if a = k then v else 0)).sum = v
  | k :: ks, ha, hnd => by
    rcases List.nodup_cons.mp hnd with ⟨hk, hnds⟩
    rcases List.mem_cons.mp ha with rfl | ha2
    · have hz : (ks.map (fun k => if a = k then v else 0)).sum = 0 := by
        rw [List.map_congr_left (fun k hk2 => if_neg (fun h : a = k => hk (h ▸ hk2)))]
        simp
      simp [hz]
    · have hne : a ≠ k := fun h => hk (h ▸ ha2)
      simp [hne, sum_if_single v ha2 hnds]

theorem fiberSum_cons [LinearOrder κ] (key : Row → κ) (r : Row) (rs : List Row) (k : κ) :
    fiberSum key (r :: rs) k = (if key r = k then r.votes else 0) + fiberSum key rs k := by
  unfold fiberSum
  rw [List.filter_cons]
  by_cases h : key r = k <;> simp [h]

theorem sum_fiberSum [LinearOrder κ] (key : Row → κ) {ks : List κ} (hnd : ks.Nodup) :
    ∀ rows : List Row, (∀ r ∈ rows, key r ∈ ks) →
      (ks.map (fiberSum key rows)).sum = (rows.map Row.votes).sum
  | [], _ => by
    have : ∀ k ∈ ks, fiberSum key [] k = 0 := fun k _ => by simp [fiberSum]
    rw [List.map_congr_left this]
    simp
  | r :: rs, hmem => by
    have hsplit : ∀ k ∈ ks, fiberSum key (r :: rs) k
        = (if key r = k then r.votes else 0) + fiberSum key rs k :=
      fun k _ => fiberSum_cons key r rs k
    rw [List.map_congr_left hsplit, sum_map_add, List.map_cons, List.sum_cons]
    rw [sum_if_single r.votes (hmem r (List.mem_cons_self r rs)) hnd]
    rw [sum_fiberSum key hnd rs (fun x hx => hmem x (List.mem_cons_of_mem r hx))]

theorem sum_rankBy [LinearOrder κ] (key : Row → κ) (rows : List Row) :
    ((rankBy key rows).map Prod.snd).sum = (rows.map Row.votes).sum := by
  rw [((rankBy_perm key rows).map Prod.snd).sum_eq]
  unfold groupedSums
  rw [List.map_map]
  rw [show Prod.snd ∘ (fun k => (k, fiberSum key rows k)) = fiberSum key rows from rfl]
  exact sum_fiberSum key (nodup_keysOf key rows) rows
    (fun r hr => mem_keysOf.mpr (List.mem_map.mpr ⟨r, hr, rfl⟩))

/-! ### Tie-break order of the ranked output -/

theorem rank_tie_sublist [LinearOrder κ] {key : Row → κ} {rows : List Row}
    {k1 k2 : κ} {v : Int} (h1 : k1 ∈ rows.map key) (h2 : k2 ∈ rows.map key)
    (hlt : k1 < k2) (hv1 : fiberSum key rows k1 = v) (hv2 : fiberSum key rows k2 = v) :
    [(k1, v), (k2, v)].Sublist (rankBy key rows) := by
  have hkeys : [k1, k2].Sublist (keysOf key rows) :=
    pair_sublist_of_sorted (sorted_keysOf key rows)
      (mem_keysOf.mpr h1) (mem_keysOf.mpr h2) hlt
  have hmap : [(k1, fiberSum key rows k1), (k2, fiberSum key rows k2)].Sublist
      (groupedSums key rows) := hkeys.map (fun k => (k, fiberSum key rows k))
  rw [hv1, hv2] at hmap
  exact ordSort_pair_sublist (by simp) hmap

/-! ### State-transition lemmas for the three analysis methods -/

theorem analyze_turnout_frame (s : Session) :
    (analyze_turnout s).1.analysis_results.party_performance
        = s.analysis_results.party_performance
      ∧ (analyze_turnout s).1.analysis_results.candidate_performance
        = s.analysis_results.candidate_performance := by
  cases hd : s.data with
  | none => simp [analyze_turnout, hd]
  | some df =>
    cases hv : validate_data df with
    | error e => simp [analyze_turnout, hd, hv]
    | ok b => simp [analyze_turnout, hd, hv]

theorem analyze_party_frame (s : Session) :
    (analyze_party_performance s).1.analysis_results.turnout_by_region
        = s.analysis_results.turnout_by_region
      ∧ (analyze_party_performance s).1.analysis_results.candidate_performance
        = s.analysis_results.candidate_performance := by
  cases hd : s.data with
  | none => simp [analyze_party_performance, hd]
  | some df =>
    cases hv : validate_data df with
    | error e => simp [analyze_party_performance, hd, hv]
    | ok b => simp [analyze_party_performance, hd, hv]

theorem analyze_candidate_frame (s : Session) :
    (analyze_candidate_performance s).1.analysis_results.turnout_by_region
        = s.analysis_results.turnout_by_region
      ∧ (analyze_candidate_performance s).1.analysis_results.party_performance
        = s.analysis_results.party_performance := by
  cases hd : s.data with
  | none => simp [analyze_candidate_performance, hd]
  | some df =>
    cases hv : validate_data df with
    | error e => simp [analyze_candidate_performance, hd, hv]
    | ok b => simp [analyze_candidate_performance, hd, hv]

theorem analyze_turnout_stores (s : Session) (df : DataFrame) (hd : s.data = some df)
    (hv : validate_data df = Except.ok true) :
    (analyze_turnout s).1.analysis_results.turnout_by_region
      = some (turnoutCalc df.rows) := by
  simp [analyze_turnout, hd, hv]

theorem analyze_party_stores (s : Session) (df : DataFrame) (hd : s.data = some df)
    (hv : validate_data df = Except.ok true) :
    (analyze_party_performance s).1.analysis_results.party_performance
      = some (partyCalc df.rows) := by
  simp [analyze_party_performance, hd, hv]

theorem analyze_candidate_stores (s : Session) (df : DataFrame) (hd : s.data = some df)
    (hv : validate_data df = Except.ok true) :
    (analyze_candidate_performance s).1.analysis_results.candidate_performance
      = some (candidateCalc df.rows) := by
  simp [analyze_candidate_performance, hd, hv]

/-! ### The claims -/

/-- C1: the claim says a successful load from the `Analyzed` state
empties the analysis-results mapping.  The code contradicts it:
`load_data` only assigns `self.data` and never touches
`self.analysis_results`, so after analysing one table and successfully
loading another, the stale turnout series is still stored.  This
theorem evaluates the code on that failing input: a fresh session loads
a frame, runs turnout analysis, then loads a second frame, and the
results mapping still holds the first frame's turnout series. -/
theorem C1_reload_keeps_stale_results :
    (load_data
        (analyze_turnout
          (load_data initSession
            ⟨["region", "candidate", "party", "votes"],
             [⟨"RegionA", "Alice", "PartyX", 100⟩]⟩).1).1
        ⟨["region", "candidate", "party", "votes"],
         [⟨"RegionB", "Carol", "PartyZ", 7⟩]⟩).1.analysis_results
        = ⟨some [("RegionA".data, 100)], none, none⟩
      ∧ (load_data
          (analyze_turnout
            (load_data initSession
              ⟨["region", "candidate", "party", "votes"],
               [⟨"RegionA", "Alice", "PartyX", 100⟩]⟩).1).1
          ⟨["region", "candidate", "party", "votes"],
           [⟨"RegionB", "Carol", "PartyZ", 7⟩]⟩).1.analysis_results.isEmpty = false := by
  constructor
  · decide
  · decide

/-- C2: the claim says validation rejects a `votes` cell that is not a
non-negative integer with an `InvalidVotesValue` error.  The code's
`validate_data` checks only that the four required column names are
present and never inspects a single cell, so a table whose one row has
`votes = -5` validates successfully. -/
theorem C2_validate_accepts_negative_votes :
    validate_data
        ⟨["region", "candidate", "party", "votes"],
         [⟨"RegionA", "Alice", "PartyX", -5⟩]⟩ = Except.ok true :=
  rfl

/-- C3 (counterexample): the claim says groups with equal totals keep
the relative order of their first occurrence in the table.  With rows
whose regions first appear in the order RegionZ, RegionA and tie at 10
votes, the code returns RegionA first: pandas `groupby` sorts the group
keys ascending before `sort_values` ever runs, so the first-encountered
order is lost. -/
theorem C3_tie_not_first_encountered :
    ([⟨"RegionZ", "c1", "p1", 10⟩, ⟨"RegionA", "c2", "p2", 10⟩] : List Row).map regionKey
        = ["RegionZ".data, "RegionA".data]
      ∧ turnoutCalc [⟨"RegionZ", "c1", "p1", 10⟩, ⟨"RegionA", "c2", "p2", 10⟩]
        = [("RegionA".data, 10), ("RegionZ".data, 10)]
      ∧ turnoutCalc [⟨"RegionZ", "c1", "p1", 10⟩, ⟨"RegionA", "c2", "p2", 10⟩]
        ≠ [("RegionZ".data, 10), ("RegionA".data, 10)] := by
  refine ⟨by decide, by decide, by decide⟩

/-- C3 (amended): in each of the three analyses, for tables whose
aggregate has at most 16 distinct groups — the series sizes on which
numpy's default quicksort is a single stable insertion-sort pass, so
the code does fix the tie order — whenever two groups have equal
summed vote totals, the ranked output places them in ascending
group-key order: the order pandas `groupby` emits the groups in, not
the order of first encounter in the table.  The pipeline being a pure
function of the table, this order is identical across repeated runs.
For larger aggregates the code's tie order is unspecified (pandas
documents `kind='quicksort'` as not stable), so no tie-order statement
is made there. -/
theorem C3_ties_follow_ascending_key_order :
    (∀ (rows : List Row) (k1 k2 : List Char) (v : Int),
        (rows.map regionKey).toFinset.card ≤ 16 →
        k1 ∈ rows.map regionKey → k2 ∈ rows.map regionKey → k1 < k2 →
        fiberSum regionKey rows k1 = v → fiberSum regionKey rows k2 = v →
        [(k1, v), (k2, v)].Sublist (turnoutCalc rows))
      ∧ (∀ (rows : List Row) (k1 k2 : List Char) (v : Int),
          (rows.map partyKey).toFinset.card ≤ 16 →
          k1 ∈ rows.map partyKey → k2 ∈ rows.map partyKey → k1 < k2 →
          fiberSum partyKey rows k1 = v → fiberSum partyKey rows k2 = v →
          [(k1, v), (k2, v)].Sublist (partyCalc rows))
      ∧ (∀ (rows : List Row) (k1 k2 : Lex (List Char × List Char)) (v : Int),
          (rows.map candKey).toFinset.card ≤ 16 →
          k1 ∈ rows.map candKey → k2 ∈ rows.map candKey → k1 < k2 →
          fiberSum candKey rows k1 = v → fiberSum candKey rows k2 = v →
          [(k1, v), (k2, v)].Sublist (candidateCalc rows)) :=
  ⟨fun _ _ _ _ _ h1 h2 hlt hv1 hv2 => rank_tie_sublist h1 h2 hlt hv1 hv2,
   fun _ _ _ _ _ h1 h2 hlt hv1 hv2 => rank_tie_sublist h1 h2 hlt hv1 hv2,
   fun _ _ _ _ _ h1 h2 hlt hv1 hv2 => rank_tie_sublist h1 h2 hlt hv1 hv2⟩

/-- C3 (witness): the amended theorem applied to a concrete two-group
table with a tie: regions A and B both total 10, and the output lists
A before B. -/
theorem C3_ties_follow_ascending_key_order_witness :
    [("A".data, (10 : Int)), ("B".data, 10)].Sublist
      (turnoutCalc [⟨"A", "c1", "p1", 10⟩, ⟨"B", "c2", "p2", 10⟩]) :=
  C3_ties_follow_ascending_key_order.1
    [⟨"A", "c1", "p1", 10⟩, ⟨"B", "c2", "p2", 10⟩] "A".data "B".data 10
    (by decide) (by decide) (by decide) (by decide) (by decide) (by decide)

/-- C4: conservation law — for every table, the per-group totals of
each of the three analyses sum to the total of the `votes` column. -/
theorem C4_conservation (rows : List Row) :
    ((turnoutCalc rows).map Prod.snd).sum = (rows.map Row.votes).sum
      ∧ ((partyCalc rows).map Prod.snd).sum = (rows.map Row.votes).sum
      ∧ ((candidateCalc rows).map Prod.snd).sum = (rows.map Row.votes).sum :=
  ⟨sum_rankBy regionKey rows, sum_rankBy partyKey rows, sum_rankBy candKey rows⟩

/-- C5: for every table and grouping key, the ranked series has the
same length as the aggregate it is sorted from, that length is the
number of distinct group keys of the table (no group dropped, none
zero-filled: a key appears in the output exactly when some row has it),
and the sequence of totals is non-increasing. -/
theorem C5_rank_length_sorted_complete {κ : Type} [LinearOrder κ]
    (key : Row → κ) (rows : List Row) :
    (rankBy key rows).length = (groupedSums key rows).length
      ∧ (rankBy key rows).length = (rows.map key).toFinset.card
      ∧ (rankBy key rows).Pairwise (fun p q => q.2 ≤ p.2)
      ∧ (∀ k : κ, (∃ v, (k, v) ∈ rankBy key rows) ↔ k ∈ rows.map key) :=
  ⟨(rankBy_perm key rows).length_eq,
   length_rankBy key rows,
   sorted_desc_rankBy key rows,
   fun k =>
     ⟨fun ⟨_, hv⟩ => (mem_rankBy.mp hv).1,
      fun hk => ⟨fiberSum key rows k, mem_rankBy.mpr ⟨hk, rfl⟩⟩⟩⟩

/-- C5 (witness): the theorem applied to a concrete table for the
region grouping. -/
theorem string_data_inj {a b : String} : a.data = b.data ↔ a = b :=
  ⟨fun h => String.toList_inj.mp h, fun h => h ▸ rfl⟩

/-- C6: candidate-performance groups rows by the (candidate, party)
pair — two rows fall in the same group exactly when both fields agree,
every stored total is the sum of the votes of the rows matching both
fields, and the spec's concrete three-row scenario produces exactly
`[((Alice, PartyX), 130), ((Bob, PartyY), 50)]`. -/
theorem C6_candidate_groups_by_pair :
    (∀ r1 r2 : Row, candKey r1 = candKey r2
        ↔ (r1.candidate = r2.candidate ∧ r1.party = r2.party))
      ∧ (∀ (rows : List Row) (c p : String) (v : Int),
          (toLex (c.data, p.data), v) ∈ candidateCalc rows →
            v = ((rows.filter
                  (fun r => decide (r.candidate = c ∧ r.party = p))).map Row.votes).sum)
      ∧ candidateCalc
          [⟨"RegionA", "Alice", "PartyX", 100⟩, ⟨"RegionA", "Bob", "PartyY", 50⟩,
           ⟨"RegionB", "Alice", "PartyX", 30⟩]
        = [(toLex ("Alice".data, "PartyX".data), 130),
           (toLex ("Bob".data, "PartyY".data), 50)] := by
  refine ⟨?_, ?_, by decide⟩
  · intro r1 r2
    simp [candKey, toLex_inj, Prod.ext_iff, string_data_inj]
  · intro rows c p v hmem
    rw [(mem_rankBy.mp hmem).2]
    unfold fiberSum
    congr 1
    refine congrArg _ (List.filter_congr ?_)
    intro r _
    refine decide_eq_decide.mpr ?_
    simp [candKey, toLex_inj, Prod.ext_iff, string_data_inj]

/-- C6 (witness): the per-group-total clause of the theorem applied to
the concrete scenario table, at the (Alice, PartyX) group. -/
theorem C6_candidate_groups_by_pair_witness :
    (130 : Int) = ((([⟨"RegionA", "Alice", "PartyX", 100⟩, ⟨"RegionA", "Bob", "PartyY", 50⟩,
        ⟨"RegionB", "Alice", "PartyX", 30⟩] : List Row).filter
          (fun r => decide (r.candidate = "Alice" ∧ r.party = "PartyX"))).map Row.votes).sum :=
  C6_candidate_groups_by_pair.2.1
    [⟨"RegionA", "Alice", "PartyX", 100⟩, ⟨"RegionA", "Bob", "PartyY", 50⟩,
     ⟨"RegionB", "Alice", "PartyX", 30⟩] "Alice" "PartyX" 130 (by decide)

/-- C7: with no table loaded every analysis method fails with the
no-data error and returns the session unchanged (so the stored results
are untouched and no partial aggregate is produced); with a loaded
frame that has the required columns, each method stores the freshly
computed series under exactly its own kind. -/
theorem C7_analyses_require_loaded_data (s : Session) :
    (s.data = none →
        analyze_turnout s = (s, Except.error Err.NoDataLoaded)
        ∧ analyze_party_performance s = (s, Except.error Err.NoDataLoaded)
        ∧ analyze_candidate_performance s = (s, Except.error Err.NoDataLoaded))
      ∧ (∀ df : DataFrame, s.data = some df → validate_data df = Except.ok true →
          (analyze_turnout s).1.analysis_results.turnout_by_region
            = some (turnoutCalc df.rows)
          ∧ (analyze_party_performance s).1.analysis_results.party_performance
            = some (partyCalc df.rows)
          ∧ (analyze_candidate_performance s).1.analysis_results.candidate_performance
            = some (candidateCalc df.rows)) := by
  constructor
  · intro h
    refine ⟨?_, ?_, ?_⟩ <;>
      simp [analyze_turnout, analyze_party_performance, analyze_candidate_performance, h]
  · intro df hd hv
    exact ⟨analyze_turnout_stores s df hd hv, analyze_party_stores s df hd hv,
      analyze_candidate_stores s df hd hv⟩

/-- C7 (witness): on the fresh session turnout analysis fails with
`NoDataLoaded`; after loading a concrete valid frame it stores the
computed turnout series. -/
theorem C7_analyses_require_loaded_data_witness :
    analyze_turnout initSession = (initSession, Except.error Err.NoDataLoaded)
      ∧ (analyze_turnout
          (load_data initSession
            ⟨["region", "candidate", "party", "votes"],
             [⟨"RegionA", "Alice", "PartyX", 100⟩]⟩).1).1.analysis_results.turnout_by_region
        = some (turnoutCalc [⟨"RegionA", "Alice", "PartyX", 100⟩]) :=
  ⟨((C7_analyses_require_loaded_data initSession).1 rfl).1,
   ((C7_analyses_require_loaded_data
      (load_data initSession
        ⟨["region", "candidate", "party", "votes"],
         [⟨"RegionA", "Alice", "PartyX", 100⟩]⟩).1).2
      ⟨["region", "candidate", "party", "votes"],
       [⟨"RegionA", "Alice", "PartyX", 100⟩]⟩ rfl rfl).1⟩

/-- C8: report generation with an empty analysis-results mapping fails
with `NoAnalysisResults`; the session state is returned unchanged in
every case; once at least one kind is stored it succeeds. -/
theorem C8_report_requires_results (s : Session) (ts : String) :
    (generate_report s ts).1 = s
      ∧ (s.analysis_results.isEmpty = true →
          generate_report s ts = (s, Except.error Err.NoAnalysisResults))
      ∧ (s.analysis_results.isEmpty = false →
          ∃ txt, generate_report s ts = (s, Except.ok txt)) := by
  unfold generate_report
  by_cases h : s.analysis_results.isEmpty = true
  · simp [h]
  · have hb : s.analysis_results.isEmpty = false := by
      simpa using h
    simp [hb]

/-- C8 (witness): the fresh session has an empty mapping and `report`
fails with `NoAnalysisResults`. -/
theorem C8_report_requires_results_witness :
    generate_report initSession "2024-01-01 00:00:00"
      = (initSession, Except.error Err.NoAnalysisResults) :=
  (C8_report_requires_results initSession "2024-01-01 00:00:00").2.1 rfl

/-- C9 (counterexample): the claim says the composed report consists
of the title, the timestamp line and the analysis blocks alone, a pure
function of the analysis-results snapshot plus a timestamp.  It is
not: on the reachable state obtained by generating visualizations
first (source lines 164-165 then emit the `Visualization saved to:`
line), the report text differs from the report of a session with the
identical analysis-results snapshot but no visualization, at the same
timestamp. -/
theorem C9_report_not_pure_in_snapshot :
    (generate_visualizations
        ⟨none, ⟨some [("A".data, 3)], none, none⟩, none⟩
        "20240101_000000").1.analysis_results
      = ⟨some [("A".data, 3)], none, none⟩
    ∧ (generate_report
        (generate_visualizations
          ⟨none, ⟨some [("A".data, 3)], none, none⟩, none⟩
          "20240101_000000").1 "T").2
      ≠ (generate_report ⟨none, ⟨some [("A".data, 3)], none, none⟩, none⟩ "T").2 := by
  constructor
  · decide
  · decide

/-- C9 (amended): for a non-empty analysis-results mapping the
generated report is `composeReport` of the stored snapshot and the
timestamp — a title, the timestamp line, then each available block in
the fixed order turnout, party, candidate (the candidate block
truncated to its first 10 entries), with missing kinds contributing
nothing — followed by the `Visualization saved to:` line exactly when
a chart has been generated.  The report is thus a pure function of the
stored results, the stored visualization path and the timestamp, so
composing it recomputes no aggregate from the loaded table. -/
theorem C9_report_is_composed_snapshot (s : Session) (ts : String)
    (h : s.analysis_results.isEmpty = false) :
    generate_report s ts
      = (s, Except.ok (composeReport s.analysis_results ts
          ++ vizLine s.visualizations_latest)) := by
  unfold generate_report composeReport vizLine
  simp [h, String.join, String.append_assoc]

/-- C9 (witness): the amended theorem applied to a concrete session
holding a turnout series and a saved visualization path. -/
theorem C9_report_is_composed_snapshot_witness :
    generate_report ⟨none, ⟨some [("A".data, 3)], none, none⟩, some "v.png"⟩ "T"
      = (⟨none, ⟨some [("A".data, 3)], none, none⟩, some "v.png"⟩,
          Except.ok (composeReport ⟨some [("A".data, 3)], none, none⟩ "T"
            ++ vizLine (some "v.png"))) :=
  C9_report_is_composed_snapshot
    ⟨none, ⟨some [("A".data, 3)], none, none⟩, some "v.png"⟩ "T" rfl

/-- C10: each analysis method writes only its own entry of the
analysis-results mapping: after any call, the stored series of the two
other kinds are exactly what they were before the call (this holds
whether the call succeeds or fails). -/
theorem C10_analysis_writes_only_its_kind (s : Session) :
    (analyze_turnout s).1.analysis_results.party_performance
        = s.analysis_results.party_performance
      ∧ (analyze_turnout s).1.analysis_results.candidate_performance
        = s.analysis_results.candidate_performance
      ∧ (analyze_party_performance s).1.analysis_results.turnout_by_region
        = s.analysis_results.turnout_by_region
      ∧ (analyze_party_performance s).1.analysis_results.candidate_performance
        = s.analysis_results.candidate_performance
      ∧ (analyze_candidate_performance s).1.analysis_results.turnout_by_region
        = s.analysis_results.turnout_by_region
      ∧ (analyze_candidate_performance s).1.analysis_results.party_performance
        = s.analysis_results.party_performance :=
  ⟨(analyze_turnout_frame s).1, (analyze_turnout_frame s).2,
   (analyze_party_frame s).1, (analyze_party_frame s).2,
   (analyze_candidate_frame s).1, (analyze_candidate_frame s).2⟩

theorem C5_rank_length_sorted_complete_witness :
    (rankBy regionKey [⟨"A", "c1", "p1", 3⟩, ⟨"B", "c2", "p2", 5⟩, ⟨"A", "c3", "p3", 4⟩]).length
        = ([⟨"A", "c1", "p1", 3⟩, ⟨"B", "c2", "p2", 5⟩,
            ⟨"A", "c3", "p3", 4⟩].map regionKey).toFinset.card :=
  (C5_rank_length_sorted_complete regionKey
    [⟨"A", "c1", "p1", 3⟩, ⟨"B", "c2", "p2", 5⟩, ⟨"A", "c3", "p3", 4⟩]).2.1

end ElectionAnalyzer
